import Mathlib

/-!
Verification development for the apim-swagger-downloader pipeline.

The pipeline downloads OpenAPI specifications from Azure API Management,
renders each one to Markdown, fuses hand-authored wiki Markdown into
per-service documents, and publishes both kinds of document to an Azure
AI Search index.  This file gives a shallow embedding of the pipeline's
pure logic and proves properties of it.

Modelling conventions, used throughout:

* File-system reads and external calls (Azure SDK, `requests`, the LLM
  call, `hashlib.md5`, `json.dumps`) are the environment.  Each is passed
  in as an explicit argument: the outcome of a fallible read is an
  `Option`, a batch-upload call that may throw is modelled by a function
  `failAt : Nat → Bool` giving the outcome of the n-th upload call made
  by the loop under study, the md5 hex digest is an abstract
  `md5hex : String → String`, and `json.dumps` of an extraction result is
  an abstract `dumps` argument.
* A Python exception is modelled with `Except` when it can escape the
  function under study, and by the control flow of the surrounding
  `try`/`except` when it cannot.
* Python truthiness on strings (`if s:`) conflates an absent key with an
  empty string; where the rendered output cannot distinguish the two the
  embedding uses `String` with `""` for "absent or empty", and where it
  can (e.g. `info.get('title', 'API Documentation')`, whose default fires
  only when the key is absent) the embedding uses `Option String`.
* Python `dict`s iterate in insertion order, so JSON objects are embedded
  as association lists (`List (key × value)`), preserving order.
-/

namespace ApimSwagger

/-! ## Spec fetcher: output filename construction

From `apim_swagger_downloader.py`, `download_swagger` (lines 107-110):

    safe_name = ''.join(c if c.isalnum() or c in ['-', '_'] else '_' for c in api_name)
    filename = f"{safe_name}_{api_id}.json"

Filenames are modelled as `List Char` so that the suffix argument used in
the uniqueness proof stays elementary.
-/

/-- `safe_name`: keep alphanumerics, `-` and `_`; replace every other
character with `_`. -/
def safeName (apiName : List Char) : List Char :=
  apiName.map (fun c => if c.isAlphanum || c = '-' || c = '_' then c else '_')

/-- `filename = f"{safe_name}_{api_id}.json"`. -/
def swaggerFileName (displayName apiId : List Char) : List Char :=
  safeName displayName ++ ('_' :: apiId) ++ ".json".toList

/-! ## Search publisher: batch upload loops

Two distinct loops exist in the source.

`azure_search_indexer.py`, `index_markdown_files` (lines 154-202): a
per-file `try` covers the parse *and* the batch upload triggered by that
file; the final flush of the buffer (lines 197-199) is outside any `try`,
so a throwing final upload escapes the function.  The function returns
`len(markdown_files)` whatever happened per item.

`wiki_document_processor.py`, `_upload_documents_to_search` (lines
273-294): one `try` wraps the whole batch loop, so the first throwing
upload call abandons the remaining batches and the function returns
`False`.
-/

/-- Outcome of one run of `index_markdown_files`:
`calls` is the sequence of `upload_documents` calls attempted (each with
the batch it carried), `raised` is true when the final flush threw (the
exception escapes the function), and `result` is the return value
(`len(markdown_files)`) when the function returned. -/
structure IndexRun (α : Type) where
  calls : List (List α)
  raised : Bool
  result : Nat
  deriving DecidableEq, Repr

/-- The per-file loop of `index_markdown_files` (lines 180-199).
`files` carries each file's parse outcome (`none`: `parse_markdown_file`
threw, caught by the per-file `except`); `buf` is the `documents` list,
`calls` the upload calls attempted so far, `k` the index of the next
upload call (feeding `failAt`).  A throwing in-loop upload is caught by
the per-file `except`, so `documents` is *not* cleared; a throwing final
flush escapes. -/
def indexGo {α : Type} (failAt : Nat → Bool) (total : Nat) :
    List (Option α) → List α → List (List α) → Nat → IndexRun α
  | [], buf, calls, k =>
    if buf.isEmpty then ⟨calls, false, total⟩
    else ⟨calls ++ [buf], failAt k, total⟩
  | none :: rest, buf, calls, k => indexGo failAt total rest buf calls k
  | some d :: rest, buf, calls, k =>
    let buf2 := buf ++ [d]
    if buf2.length ≥ 10 then
      if failAt k then indexGo failAt total rest buf2 (calls ++ [buf2]) (k + 1)
      else indexGo failAt total rest [] (calls ++ [buf2]) (k + 1)
    else indexGo failAt total rest buf2 calls k

/-- `index_markdown_files` (lines 154-202): create the index
(`indexCreated` models `create_search_index()`; on failure return `0`
with no uploads), run the per-file loop, flush the remainder outside any
`try`, and return `len(markdown_files)`. -/
def index_markdown_files {α : Type} (indexCreated : Bool) (failAt : Nat → Bool)
    (files : List (Option α)) : IndexRun α :=
  if indexCreated then indexGo failAt files.length files [] [] 0
  else ⟨[], false, 0⟩

/-- `_upload_documents_to_search` (lines 273-294): slice `documents` into
groups of 10 (`documents[i:i+10]` for `i = 0, 10, 20, ...`); the single
`try` wraps the whole loop, so the first throwing upload call returns
`(false, calls so far)`; otherwise `(true, all batches)`.  The second
component records every upload call attempted, in order. -/
def uploadGo {α : Type} (failAt : Nat → Bool) (k : Nat) (l : List α) :
    Bool × List (List α) :=
  if h : l.isEmpty then (true, [])
  else
    let batch := l.take 10
    if failAt k then (false, [batch])
    else
      let r := uploadGo failAt (k + 1) (l.drop 10)
      (r.1, batch :: r.2)
termination_by l.length
decreasing_by
  cases l with
  | nil => simp at h
  | cons x xs => simp [List.length_drop]; omega

/-- `_upload_documents_to_search`, entry point. -/
def upload_documents_to_search {α : Type} (failAt : Nat → Bool) (docs : List α) :
    Bool × List (List α) :=
  uploadGo failAt 0 docs

/-! ## Wiki fuser: per-service document fusion

From `wiki_document_processor.py`.  `_process_service_documents` (lines
173-241) concatenates the contents of a service's design and build
Markdown files under two headings, after stripping a leading H1 line from
each file, and stamps the document with `id = "wiki-" + md5(service_name)`.

The walking of the directory tree, the file reads, `datetime.now()` (the
`lastUpdated` field) and the path-based `documentUrl` derivation are
environment; the embedding takes the service name, the already-read file
contents of the design and build lists, and the derived URL as inputs.

Python's `content.split('\n')` and `'\n'.join(lines)` are embedded as
`splitNl` and `joinNl` over `List Char`; like Python's `split`, `splitNl`
never returns an empty list (`splitNl [] = [[]]`).
-/

/-- `content.split('\n')` over the character list of the content. -/
def splitNl : List Char → List (List Char)
  | [] => [[]]
  | c :: rest =>
    if c = '\n' then [] :: splitNl rest
    else
      match splitNl rest with
      | [] => [[c]]
      | l :: ls => (c :: l) :: ls

/-- `'\n'.join(lines)`. -/
def joinNl : List (List Char) → List Char
  | [] => []
  | [l] => l
  | l :: ls => l ++ '\n' :: joinNl ls

/-- Lines 198-201 / 217-220: split the content on newlines, drop the first
line when it starts with `"# "` (Python's `lines and lines[0].startswith('# ')`;
the `lines` list is never empty), and rejoin. -/
def stripLeadingTitle (content : String) : String :=
  match splitNl content.toList with
  | [] => content
  | l0 :: rest =>
    if ['#', ' '].isPrefixOf l0 then String.mk (joinNl rest)
    else String.mk (joinNl (l0 :: rest))

/-- The `for doc_path in ...: combined_content += doc_content + "\n\n"`
loop body shared by the design and build sections (lines 193-202 and
212-221): each file's stripped content followed by a blank line. -/
def sectionBody : List String → String
  | [] => ""
  | c :: cs => stripLeadingTitle c ++ "\n\n" ++ sectionBody cs

def designHeading : String := "## Design Documentation"

def buildHeading : String := "## Build Documentation"

/-- `combined_content` as built by lines 187-221: the `# {service_name}`
title, then, for each non-empty category, its heading followed by the
stripped file contents. -/
def combinedContent (serviceName : String) (designContents buildContents : List String) :
    String :=
  "# " ++ serviceName ++ "\n\n"
    ++ (if designContents.isEmpty then ""
        else designHeading ++ "\n\n" ++ sectionBody designContents)
    ++ (if buildContents.isEmpty then ""
        else buildHeading ++ "\n\n" ++ sectionBody buildContents)

/-- The search document built for one wiki service (lines 232-241).
`lastUpdated` (`datetime.now()`) is environment and omitted. -/
structure WikiDoc where
  id : String
  title : String
  content : String
  apiName : String
  documentType : String
  documentUrl : String
  sourceType : String
  deriving DecidableEq, Repr

/-- `_process_service_documents` (lines 173-241): build the combined
content and stamp `id = f"wiki-{hashlib.md5(service_name.encode()).hexdigest()}"`
(line 229).  `md5hex` is the abstract md5 hex digest; `documentUrl` is the
URL derived from the first design (else first build) file's path. -/
def _process_service_documents (md5hex : String → String) (serviceName : String)
    (designContents buildContents : List String) (documentUrl : String) : WikiDoc :=
  { id := "wiki-" ++ md5hex serviceName
    title := serviceName
    content := combinedContent serviceName designContents buildContents
    apiName := serviceName
    documentType := "Wiki"
    documentUrl := documentUrl
    sourceType := "Wiki" }

/-- Number of lines of `content` (split on newlines) equal to `heading`:
the count of occurrences of the heading in the combined content. -/
def headingLineCount (heading : String) (content : String) : Nat :=
  (splitNl content.toList).count heading.toList

/-! ## Markdown indexer: parsing one markdown file

`azure_search_indexer.py`, `parse_markdown_file` (lines 107-152): read
the file, extract the title (first line matching `^# (.+)$`, else the
file's basename), and stamp
`id = hashlib.md5(content.encode()).hexdigest()` (line 140).  The
regex-derived `apiVersion` and `lastUpdated` fields and the `fileUrl`
field are not touched by any claim and are omitted; the file read is
environment, so the embedding takes the content and basename as inputs.
-/

/-- `re.search(r'^# (.+)$', content, re.MULTILINE)`: the first line that
starts with `"# "` and has at least one further character; the title is
the rest of that line.  Falls back to the file's basename. -/
def extractTitle (content fileName : String) : String :=
  match (splitNl content.toList).find?
      (fun l => ['#', ' '].isPrefixOf l && l.length ≥ 3) with
  | some l => String.mk (l.drop 2)
  | none => fileName

/-- The search document built from one markdown file (lines 142-152). -/
structure ApiDoc where
  id : String
  title : String
  content : String
  apiName : String
  documentType : String
  fileName : String
  deriving DecidableEq, Repr

/-- `parse_markdown_file` (lines 107-152): `id` is the md5 hex digest of
the full file content; `title` and `apiName` are the extracted title. -/
def parse_markdown_file (md5hex : String → String) (fileName content : String) : ApiDoc :=
  let title := extractTitle content fileName
  { id := md5hex content
    title := title
    content := content
    apiName := title
    documentType := "API Documentation"
    fileName := fileName }

/-! ## LLM-enabled swagger indexer

`swagger_indexer.py`.  `process_swagger_file` (lines 359-426) reads the
swagger file (a failed read is logged and returns `None`), runs the LLM
extraction (environment: `extract`, where `none` models a failed or empty
extraction result `{}`), and *raises* `ValueError` when the extraction is
empty or has no usable `apiName` (lines 413-415).  `index_swagger_files`
(lines 428-490) loops over the files with a per-file `try` that catches
every exception — including that `ValueError` — and also wraps its final
batch flush in a `try` (lines 482-487), so it never raises; it returns
`processed_count`.

Python checks `not api_info.get('apiName')`, which is true both when the
key is absent and when it is the empty string, so `apiName : String` with
`""` for "absent or empty".  The dead `operations_list` and `api_version`
locals (computed but never returned) and the side write of the extraction
JSON to `llm_dir` are omitted.  `dumps` is the abstract `json.dumps`.
-/

/-- The LLM extraction result used by `process_swagger_file`. -/
structure ApiInfo where
  apiName : String
  operations : List (String × String)
  deriving DecidableEq, Repr

/-- The search document built from one swagger file (lines 419-426);
`lastUpdated` (`datetime.now()`) is environment and omitted. -/
structure SwagDoc where
  id : String
  apiName : String
  apiContent : String
  apiContentVector : String
  reference : String
  deriving DecidableEq, Repr

/-- `process_swagger_file` (lines 359-426).  `raw = none`: the file read
threw (logged, returns `None`).  A failed extraction or missing `apiName`
raises `ValueError` (modelled as `Except.error` with the message of line
415); otherwise the document is built with `id = md5(raw content)`. -/
def process_swagger_file (extract : String → Option ApiInfo)
    (md5hex : String → String) (dumps : ApiInfo → String)
    (filePath fileName : String) (raw : Option String) :
    Except String (Option SwagDoc) :=
  match raw with
  | none => .ok none
  | some content =>
    let errMsg := "Failed to extract API information using LLM from " ++ fileName
    match extract content with
    | none => .error errMsg
    | some info =>
      if info.apiName = "" then .error errMsg
      else
        .ok (some
          { id := md5hex content
            apiName := info.apiName
            apiContent := dumps info
            apiContentVector := dumps info
            reference := filePath })

/-- The per-file loop of `index_swagger_files` (lines 460-487).  Each
input file carries its path/name and read outcome.  A raising
`process_swagger_file` is caught by the per-file `except` (skipping that
iteration's batch check); a `None` result skips the append but still
reaches the batch check; a throwing in-loop upload is caught with the
buffer retained; the final flush is inside its own `try`, so the
function always returns `(processed_count, upload calls)`. -/
def indexGoV2 (extract : String → Option ApiInfo) (md5hex : String → String)
    (dumps : ApiInfo → String) (failAt : Nat → Bool) :
    List (String × String × Option String) → List SwagDoc → List (List SwagDoc) →
      Nat → Nat → Nat × List (List SwagDoc)
  | [], buf, calls, _, cnt =>
    if buf.isEmpty then (cnt, calls) else (cnt, calls ++ [buf])
  | (path, name, raw) :: rest, buf, calls, k, cnt =>
    match process_swagger_file extract md5hex dumps path name raw with
    | .error _ => indexGoV2 extract md5hex dumps failAt rest buf calls k cnt
    | .ok od =>
      let buf2 := match od with | some d => buf ++ [d] | none => buf
      let cnt2 := match od with | some _ => cnt + 1 | none => cnt
      if buf2.length ≥ 10 then
        if failAt k then
          indexGoV2 extract md5hex dumps failAt rest buf2 (calls ++ [buf2]) (k + 1) cnt2
        else
          indexGoV2 extract md5hex dumps failAt rest [] (calls ++ [buf2]) (k + 1) cnt2
      else indexGoV2 extract md5hex dumps failAt rest buf2 calls k cnt2

/-- `index_swagger_files` (lines 428-490): create the index (on failure
return `0` with no uploads), run the per-file loop, and return
`processed_count` together with the upload calls made.  Unlike
`index_markdown_files`, every exception path is caught, so the function
never raises. -/
def index_swagger_files (indexCreated : Bool) (extract : String → Option ApiInfo)
    (md5hex : String → String) (dumps : ApiInfo → String) (failAt : Nat → Bool)
    (files : List (String × String × Option String)) : Nat × List (List SwagDoc) :=
  if indexCreated then indexGoV2 extract md5hex dumps failAt files [] [] 0 0
  else (0, [])

/-! ## Markdown renderer

`swagger_to_markdown.py`, `_python_based_conversion` (lines 87-296): a
pure walk over the parsed swagger dictionary producing the Markdown text.
The swagger document tree is embedded as structures whose fields are
exactly the values the renderer reads; where the source writes
`d.get(key, default)` and a present-but-falsy value behaves the same as
an absent key, the default is collapsed into the field (noted per field).
JSON objects keep insertion order as association lists.  `json.dumps` of
an example payload is an external serializer: `example` fields hold the
already-serialized text (`none` = no `'example'` key).
-/

/-- One entry of the `servers` list.  `url` is `server.get('url','')`;
`description` is `server.get('description')` with `""` for absent (the
source only tests truthiness and interpolates). -/
structure ServerObj where
  url : String
  description : String
  deriving DecidableEq, Repr

/-- One entry of `components.securitySchemes`.  Each field is the
corresponding `scheme.get(...)` with `""` for absent. -/
structure SecSchemeObj where
  type : String
  description : String
  scheme : String
  bearerFormat : String
  deriving DecidableEq, Repr

/-- A parameter's `schema` member: `type` is `schema.get('type','object')`;
`items` is `some t` when an `'items'` key is present, with `t` that item
schema's `items.get('type','object')`. -/
structure ParamSchemaObj where
  type : String
  items : Option String
  deriving DecidableEq, Repr

/-- One entry of an operation's `parameters` list (each `param.get(...)`,
`""`/`false` for absent; `schema = none` when no `'schema'` key). -/
structure ParamObj where
  name : String
  paramIn : String
  required : Bool
  schema : Option ParamSchemaObj
  description : String
  deriving DecidableEq, Repr

/-- One media type inside a `content` map.  `schemaRef` is the raw
`schema['$ref']` string when present (`none`: no `'$ref'` key in the
schema, or no schema); `exampleText` holds `json.dumps(example, indent=2)`
pre-serialized (`none` = no `'example'` key). -/
structure MediaTypeObj where
  schemaRef : Option String
  exampleText : Option String
  deriving DecidableEq, Repr

/-- An operation's `requestBody`: its `description` (`""` for absent) and
its `content` map in insertion order. -/
structure RequestBodyObj where
  description : String
  content : List (String × MediaTypeObj)
  deriving DecidableEq, Repr

/-- One response value: `description` (`""` for absent) and `content`. -/
structure ResponseObj where
  description : String
  content : List (String × MediaTypeObj)
  deriving DecidableEq, Repr

/-- One operation object.  `tags` is `none` when the `'tags'` key is
absent (the source then defaults to `['default']`; an explicitly empty
list stays empty and buckets the operation nowhere).  `operationId` and
`summary` keep absence observable (their defaults depend on other
fields). -/
structure OperationObj where
  tags : Option (List String)
  operationId : Option String
  summary : Option String
  description : String
  parameters : List ParamObj
  requestBody : Option RequestBodyObj
  responses : List (String × ResponseObj)
  deriving DecidableEq, Repr

/-- One entry of the top-level `tags` list: `tag.get('name')` and
`tag.get('description')` (`""` for absent). -/
structure TagDecl where
  name : String
  description : String
  deriving DecidableEq, Repr

/-- One entry of `components.schemas`: only its optional serialized
example is ever read (lines 244-256). -/
structure ComponentSchemaObj where
  exampleText : Option String
  deriving DecidableEq, Repr

/-- The parsed swagger document, restricted to the keys the renderer
reads.  `title` is `Option` because `info.get('title','API Documentation')`
defaults only on an absent key; `description`/`version` are only
truthiness-tested, so `""` stands for absent. -/
structure Swagger where
  title : Option String
  description : String
  version : String
  servers : List ServerObj
  securitySchemes : List (String × SecSchemeObj)
  paths : List (String × List (String × OperationObj))
  tagDecls : List TagDecl
  componentSchemas : List (String × ComponentSchemaObj)
  deriving DecidableEq, Repr

/-- `schema['$ref'].split('/')[-1]` (lines 240, 284): the suffix after
the last `'/'` (the whole string when there is none). -/
def refLastSegment (ref : String) : String :=
  String.mk ((ref.toList.reverse.takeWhile (fun c => c ≠ '/')).reverse)

/-- Append an operation entry to its tag's bucket, creating the bucket at
the end on first sight — the behaviour of inserting into the `tags` dict
(lines 158-161) given Python's insertion-ordered dicts. -/
def addToTag (acc : List (String × List (String × String × OperationObj)))
    (t : String) (e : String × String × OperationObj) :
    List (String × List (String × String × OperationObj)) :=
  match acc with
  | [] => [(t, [e])]
  | (k, es) :: rest =>
    if k = t then (k, es ++ [e]) :: rest else (k, es) :: addToTag rest t e

/-- Lines 154-161: walk `paths` in order, keep only the five HTTP methods,
and bucket each `(path, method, operation)` by its tags
(`operation.get('tags', ['default'])`). -/
def groupByTags (paths : List (String × List (String × OperationObj))) :
    List (String × List (String × String × OperationObj)) :=
  let entries := paths.flatMap (fun pm =>
    (pm.2.filter (fun mo => mo.1 ∈ ["get", "post", "put", "delete", "patch"])).map
      (fun mo => (pm.1, mo.1, mo.2)))
  entries.foldl (fun acc e =>
    (e.2.2.tags.getD ["default"]).foldl (fun acc t => addToTag acc t e) acc) []

/-- Lines 167-172: the first top-level tag entry whose `name` matches and
whose `description` is truthy (`break` on it); else `""`. -/
def tagDescription (decls : List TagDecl) (tagName : String) : String :=
  match decls.find? (fun d => d.name = tagName && d.description ≠ "") with
  | some d => d.description
  | none => ""

/-- Lines 210-215: a parameter's rendered type: `"object"` without a
schema; `"array of <itemType>"` for an array schema with items. -/
def paramTypeText (p : ParamObj) : String :=
  match p.schema with
  | none => "object"
  | some s =>
    if s.type = "array" then
      match s.items with
      | some itemType => "array of " ++ itemType
      | none => s.type
    else s.type

/-- `description.replace('\n', '<br>')` (line 217), as
`'<br>'.join(description.split('\n'))`. -/
def replaceNewlineBr (s : String) : String :=
  String.mk (List.intercalate "<br>".toList (splitNl s.toList))

/-- `method.upper()` (line 192), character-wise. -/
def upperStr (s : String) : String :=
  String.mk (s.toList.map Char.toUpper)

/-- Lines 204-219: one row of the parameter table. -/
def paramRow (p : ParamObj) : String :=
  "| " ++ p.name ++ " | " ++ p.paramIn ++ " | " ++ paramTypeText p ++ " | "
    ++ (if p.required then "Yes" else "No") ++ " | "
    ++ replaceNewlineBr p.description ++ " |"

/-- Lines 247-256 / 259-263 / 287-292: an example payload fenced block. -/
def exampleBlock (e : String) : List String :=
  ["**Example:**", "```json", e, "```"]

/-- Lines 234-263: the request-body lines for one `content` entry. -/
def requestContentLines (schemas : List (String × ComponentSchemaObj))
    (ct : String × MediaTypeObj) : List String :=
  ["**Content Type:** `" ++ ct.1 ++ "`", ""]
    ++ match ct.2.schemaRef with
       | some ref =>
         let refName := refLastSegment ref
         ["Schema: " ++ refName]
           ++ match (schemas.find? (fun kv => kv.1 = refName)).map Prod.snd with
              | some comp =>
                (match ct.2.exampleText with
                 | some e => exampleBlock e
                 | none =>
                   match comp.exampleText with
                   | some e => exampleBlock e
                   | none => [])
              | none => []
       | none =>
         match ct.2.exampleText with
         | some e => exampleBlock e
         | none => []

/-- Lines 278-292: the response lines for one `content` entry (no
component-schema lookup on this path). -/
def responseContentLines (ct : String × MediaTypeObj) : List String :=
  ["**Content Type:** `" ++ ct.1 ++ "`"]
    ++ match ct.2.schemaRef with
       | some ref =>
         ["Schema: " ++ refLastSegment ref]
           ++ match ct.2.exampleText with
              | some e => exampleBlock e
              | none => []
       | none => []

/-- Lines 272-294: one status-code block of the Responses section. -/
def responseLines (sr : String × ResponseObj) : List String :=
  ["**Status Code:** " ++ sr.1]
    ++ (if sr.2.description ≠ "" then ["**Description:** " ++ sr.2.description] else [])
    ++ sr.2.content.flatMap responseContentLines
    ++ [""]

/-- Lines 179-294: the lines for one operation of a tag section. -/
def operationLines (schemas : List (String × ComponentSchemaObj))
    (e : String × String × OperationObj) : List String :=
  let path := e.1
  let method := e.2.1
  let op := e.2.2
  let operationId := op.operationId.getD (method ++ " " ++ path)
  let summary := op.summary.getD operationId
  ["### " ++ summary, ""]
    ++ (if op.description ≠ "" then [op.description, ""] else [])
    ++ ["```", upperStr method ++ " " ++ path, "```", ""]
    ++ (if op.parameters.isEmpty then []
        else ["#### Parameters", "",
              "| Name | In | Type | Required | Description |",
              "|------|----|----|----------|-------------|"]
          ++ op.parameters.map paramRow ++ [""])
    ++ (match op.requestBody with
        | some rb =>
          ["#### Request Body", ""]
            ++ (if rb.description ≠ "" then [rb.description, ""] else [])
            ++ rb.content.flatMap (requestContentLines schemas)
            ++ [""]
        | none => [])
    ++ ["#### Responses", ""]
    ++ op.responses.flatMap responseLines

/-- Lines 164-294: one tag section. -/
def tagSectionLines (schemas : List (String × ComponentSchemaObj))
    (decls : List TagDecl) (sec : String × List (String × String × OperationObj)) :
    List String :=
  ["## " ++ sec.1]
    ++ (let d := tagDescription decls sec.1
        if d ≠ "" then [d, ""] else [])
    ++ sec.2.flatMap (operationLines schemas)

/-- Lines 122-129: the Base URL section (emitted only when `servers` is
non-empty; one trailing blank line after the whole loop). -/
def serversLines (servers : List ServerObj) : List String :=
  if servers.isEmpty then []
  else
    ["## Base URL"]
      ++ servers.flatMap (fun s =>
           ["* " ++ s.url]
             ++ if s.description ≠ "" then ["  * " ++ s.description] else [])
      ++ [""]

/-- Lines 132-148: the Authentication section.  Note line 140 appends the
description with a leading newline inside the same list entry. -/
def authLines (schemes : List (String × SecSchemeObj)) : List String :=
  if schemes.isEmpty then []
  else
    ["## Authentication"]
      ++ schemes.flatMap (fun ns =>
           ["### " ++ ns.1, "**Type:** " ++ ns.2.type]
             ++ (if ns.2.description ≠ "" then ["\n" ++ ns.2.description] else [])
             ++ (if ns.2.type = "http" then ["**Scheme:** " ++ ns.2.scheme] else [])
             ++ (if ns.2.bearerFormat ≠ ""
                 then ["**Bearer Format:** " ++ ns.2.bearerFormat] else [])
             ++ [""])

/-- `_python_based_conversion` (lines 87-296): build the line list and
return `"\n".join(markdown)`. -/
def _python_based_conversion (swagger : Swagger) : String :=
  let lines :=
    ["# " ++ swagger.title.getD "API Documentation", ""]
      ++ (if swagger.description ≠ "" then [swagger.description, ""] else [])
      ++ (if swagger.version ≠ "" then ["**Version:** " ++ swagger.version, ""] else [])
      ++ serversLines swagger.servers
      ++ authLines swagger.securitySchemes
      ++ (groupByTags swagger.paths).flatMap
           (tagSectionLines swagger.componentSchemas swagger.tagDecls)
  String.intercalate "\n" lines

/-! ## Converter wrapper

`swagger_to_markdown.py`, `convert_swagger_to_markdown` (lines 30-85).
The `try` calls `_python_based_conversion` (which `json.load`s the file —
a parse failure raises there); the `except` merely logs "Falling back to
basic Python-based conversion" and falls through **without** assigning
`enhanced_markdown`.  Control then reaches
`with open(markdown_file, 'w') as f: f.write(enhanced_markdown)`:
`open(..., 'w')` creates/truncates the `.md` file, after which evaluating
the unassigned `enhanced_markdown` raises `UnboundLocalError`, which
escapes to the caller — leaving an empty markdown file on disk.

The embedding takes the parse outcome (`none`: the file's content fails
to parse as valid JSON) and records what is left on disk and whether the
call raised.
-/

/-- What one `convert_swagger_to_markdown` call leaves behind:
`fileContent` is the content of the output `.md` file if it was created
(`some ""` = an empty file), `raised` whether an exception escaped. -/
structure ConvertOutcome where
  fileContent : Option String
  raised : Bool
  deriving DecidableEq, Repr

/-- `convert_swagger_to_markdown` (lines 30-85). -/
def convert_swagger_to_markdown (parsed : Option Swagger) : ConvertOutcome :=
  match parsed with
  | some sw => { fileContent := some (_python_based_conversion sw), raised := false }
  | none => { fileContent := some "", raised := true }

/-- The scenario document of spec §8: the parsed form of
`{"info":...,"paths":...}` with title `Orders`, version `1.0`, and one
tagged `GET /o` operation. -/
def ordersDoc : Swagger :=
  { title := some "Orders"
    description := ""
    version := "1.0"
    servers := []
    securitySchemes := []
    paths := [("/o", [("get",
      { tags := some ["Orders"]
        operationId := none
        summary := some "List"
        description := ""
        parameters := []
        requestBody := none
        responses := [("200", { description := "OK", content := [] })] })])]
    tagDecls := []
    componentSchemas := [] }

/-- A string is free of both wiki section headings: no line of it equals
`"## Design Documentation"` or `"## Build Documentation"`. -/
abbrev headingFree (s : String) : Prop :=
  designHeading.toList ∉ splitNl s.toList ∧ buildHeading.toList ∉ splitNl s.toList

/-! ## Supporting lemmas -/

theorem splitNl_ne_nil (l : List Char) : splitNl l ≠ [] := by
  induction l with
  | nil => simp [splitNl]
  | cons c rest ih =>
    simp only [splitNl]
    split
    · simp
    · cases h : splitNl rest with
      | nil => simp
      | cons a as => simp

theorem splitNl_append (a b : List Char) :
    splitNl (a ++ '\n' :: b) = splitNl a ++ splitNl b := by
  induction a with
  | nil => simp [splitNl]
  | cons c rest ih =>
    by_cases hc : c = '\n'
    · subst hc
      simp [splitNl, ih]
    · cases h : splitNl rest with
      | nil => exact absurd h (splitNl_ne_nil rest)
      | cons x xs =>
        simp only [List.cons_append, splitNl, if_neg hc, List.append_eq]
        rw [ih, h, List.cons_append]
        rfl

theorem splitNl_no_newline (l : List Char) (h : '\n' ∉ l) : splitNl l = [l] := by
  induction l with
  | nil => rfl
  | cons c rest ih =>
    simp only [List.mem_cons, not_or] at h
    have hc : ¬ c = '\n' := fun he => h.1 he.symm
    simp [splitNl, hc, ih h.2]

theorem mem_splitNl_no_newline (s : List Char) :
    ∀ l ∈ splitNl s, '\n' ∉ l := by
  induction s with
  | nil => simp [splitNl]
  | cons c rest ih =>
    intro l hl
    simp only [splitNl] at hl
    by_cases hc : c = '\n'
    · rw [if_pos hc] at hl
      rcases List.mem_cons.mp hl with h | h
      · simp [h]
      · exact ih l h
    · rw [if_neg hc] at hl
      cases h : splitNl rest with
      | nil => exact absurd h (splitNl_ne_nil rest)
      | cons x xs =>
        rw [h] at hl
        rcases List.mem_cons.mp hl with h2 | h2
        · subst h2
          intro hmem
          rcases List.mem_cons.mp hmem with h3 | h3
          · exact hc h3.symm
          · exact ih x (h ▸ List.mem_cons_self x xs) h3
        · exact ih l (h ▸ List.mem_cons_of_mem x h2)

theorem splitNl_joinNl (ls : List (List Char)) (hne : ls ≠ [])
    (h : ∀ l ∈ ls, '\n' ∉ l) : splitNl (joinNl ls) = ls := by
  induction ls with
  | nil => exact absurd rfl hne
  | cons a rest ih =>
    cases rest with
    | nil =>
      simp only [joinNl]
      exact splitNl_no_newline a (h a (List.mem_cons_self a []))
    | cons b rs =>
      have : joinNl (a :: b :: rs) = a ++ '\n' :: joinNl (b :: rs) := rfl
      rw [this, splitNl_append,
        splitNl_no_newline a (h a (List.mem_cons_self a (b :: rs))),
        ih (by simp) (fun l hl => h l (List.mem_cons_of_mem a hl))]
      rfl

theorem toList_append (a b : String) : (a ++ b).toList = a.toList ++ b.toList :=
  String.data_append a b

theorem strip_heading_free (hd : List Char) (hne : hd ≠ []) (c : String)
    (h : hd ∉ splitNl c.toList) : hd ∉ splitNl (stripLeadingTitle c).toList := by
  unfold stripLeadingTitle
  cases hsp : splitNl c.toList with
  | nil => exact absurd hsp (splitNl_ne_nil _)
  | cons l0 rest =>
    rw [hsp] at h
    simp only
    by_cases hpre : ['#', ' '].isPrefixOf l0
    · rw [if_pos hpre]
      show hd ∉ splitNl (joinNl rest)
      cases rest with
      | nil =>
        show hd ∉ splitNl []
        simp only [splitNl, List.mem_singleton]
        exact hne
      | cons b bs =>
        rw [splitNl_joinNl (b :: bs) (by simp)
          (fun l hl => mem_splitNl_no_newline c.toList l
            (hsp ▸ List.mem_cons_of_mem l0 hl))]
        exact fun hm => h (List.mem_cons_of_mem l0 hm)
    · rw [if_neg hpre]
      show hd ∉ splitNl (joinNl (l0 :: rest))
      rw [splitNl_joinNl (l0 :: rest) (by simp)
        (fun l hl => mem_splitNl_no_newline c.toList l (hsp ▸ hl))]
      exact h

theorem count_sectionBody (hd : List Char) (hne : hd ≠ []) (cs : List String)
    (r : List Char) (hfree : ∀ c ∈ cs, hd ∉ splitNl c.toList) :
    (splitNl ((sectionBody cs).toList ++ r)).count hd = (splitNl r).count hd := by
  induction cs with
  | nil => rfl
  | cons c cs ih =>
    have hc : hd ∉ splitNl (stripLeadingTitle c).toList :=
      strip_heading_free hd hne c (hfree c (List.mem_cons_self _ _))
    have hsh : (sectionBody (c :: cs)).toList ++ r
        = (stripLeadingTitle c).toList ++ '\n' :: '\n' :: ((sectionBody cs).toList ++ r) := by
      show (stripLeadingTitle c ++ "\n\n" ++ sectionBody cs).toList ++ r = _
      rw [toList_append, toList_append]
      simp [List.append_assoc]
    rw [hsh, splitNl_append, List.count_append]
    have h2 : splitNl ('\n' :: ((sectionBody cs).toList ++ r))
        = [] :: splitNl ((sectionBody cs).toList ++ r) := by
      simp [splitNl]
    rw [h2, List.count_cons, List.count_eq_zero.mpr hc,
      ih (fun x hx => hfree x (List.mem_cons_of_mem c hx))]
    simp [hne]

theorem count_sectionBody_self (hd : List Char) (hne : hd ≠ []) (cs : List String)
    (hfree : ∀ c ∈ cs, hd ∉ splitNl c.toList) :
    (splitNl (sectionBody cs).toList).count hd = 0 := by
  have h := count_sectionBody hd hne cs [] hfree
  rw [List.append_nil] at h
  rw [h]
  simp only [splitNl, List.count_cons, List.count_nil]
  simp [hne]

theorem count_singleton_eq (hd x : List Char) :
    List.count hd [x] = if hd = x then 1 else 0 := by
  by_cases h : hd = x <;> simp [h]

theorem count_cons_nil_head (hd : List Char) (hne : hd ≠ []) (ls : List (List Char)) :
    List.count hd ([] :: ls) = List.count hd ls := by
  rw [List.count_cons]
  simp [hne]

theorem count_combinedContent (hd : List Char) (hne : hd ≠ [])
    (name : String) (designs builds : List String)
    (hn : hd ∉ splitNl ("# " ++ name).toList)
    (hds : ∀ c ∈ designs, hd ∉ splitNl c.toList)
    (hbs : ∀ c ∈ builds, hd ∉ splitNl c.toList) :
    (splitNl (combinedContent name designs builds).toList).count hd
      = (if designs.isEmpty then 0 else if hd = designHeading.toList then 1 else 0)
        + (if builds.isEmpty then 0 else if hd = buildHeading.toList then 1 else 0) := by
  have hdnlD : '\n' ∉ designHeading.toList := by decide
  have hdnlB : '\n' ∉ buildHeading.toList := by decide
  have h2 : ∀ (x : List Char), splitNl ('\n' :: x) = [] :: splitNl x := by
    intro x; simp [splitNl]
  have hsec : ∀ (heading : String) (cs : List String),
      (heading ++ "\n\n" ++ sectionBody cs).toList
        = heading.toList ++ '\n' :: '\n' :: (sectionBody cs).toList := by
    intro heading cs
    rw [toList_append, toList_append]
    simp [List.append_assoc]
  -- the count contributed by the build-section tail
  have hcountB :
      (splitNl ((if builds.isEmpty then ""
          else buildHeading ++ "\n\n" ++ sectionBody builds).toList)).count hd
        = (if builds.isEmpty then 0 else if hd = buildHeading.toList then 1 else 0) := by
    by_cases hB : builds.isEmpty
    · simp only [if_pos hB]
      show (splitNl []).count hd = 0
      simp only [splitNl, List.count_cons, List.count_nil]
      simp [hne]
    · simp only [if_neg hB]
      rw [hsec, splitNl_append, splitNl_no_newline buildHeading.toList hdnlB, h2,
        List.count_append, count_singleton_eq,
        count_cons_nil_head hd hne, count_sectionBody_self hd hne builds hbs,
        Nat.add_zero]
  have hcombined : (combinedContent name designs builds).toList
      = ("# " ++ name).toList ++ '\n' :: '\n' ::
          ((if designs.isEmpty then ""
             else designHeading ++ "\n\n" ++ sectionBody designs).toList
           ++ (if builds.isEmpty then ""
               else buildHeading ++ "\n\n" ++ sectionBody builds).toList) := by
    show ("# " ++ name ++ "\n\n" ++ _ ++ _).toList = _
    rw [toList_append, toList_append, toList_append, toList_append]
    simp [List.append_assoc]
  rw [hcombined, splitNl_append, List.count_append, List.count_eq_zero.mpr hn, h2,
    count_cons_nil_head hd hne, Nat.zero_add]
  by_cases hD : designs.isEmpty
  · simp only [if_pos hD]
    have h0 : ("" : String).toList = [] := rfl
    rw [h0, List.nil_append, hcountB, Nat.zero_add]
  · simp only [if_neg hD]
    rw [hsec, List.append_assoc, List.cons_append, List.cons_append, splitNl_append,
      splitNl_no_newline designHeading.toList hdnlD, h2, List.count_append,
      count_singleton_eq, count_cons_nil_head hd hne,
      count_sectionBody hd hne designs _ hds, hcountB]

theorem takeWhile_append_stop (p : Char → Bool) (l : List Char) (x : Char)
    (r : List Char) (hl : ∀ c ∈ l, p c = true) (hx : p x = false) :
    (l ++ x :: r).takeWhile p = l := by
  induction l with
  | nil => simp [List.takeWhile_cons, hx]
  | cons c cs ih =>
    have hc := hl c (List.mem_cons_self c cs)
    simp [List.takeWhile_cons, hc,
      ih (fun d hd => hl d (List.mem_cons_of_mem c hd))]

/-- The api id can be read back off a generated filename as the segment
between the last underscore and the `.json` suffix, provided the id
itself contains no underscore. -/
theorem swaggerFileName_readback (n i : List Char) (hi : '_' ∉ i) :
    (((swaggerFileName n i).reverse.drop 5).takeWhile (fun c => c != '_')).reverse
      = i := by
  unfold swaggerFileName
  rw [List.reverse_append, List.reverse_append, List.reverse_cons]
  have hj : (".json".toList).reverse = ['n', 'o', 's', 'j', '.'] := rfl
  rw [hj, List.drop_left' (by decide), List.append_assoc, List.singleton_append]
  rw [takeWhile_append_stop _ _ _ _
    (fun c hc => by
      have hci : c ∈ i := List.mem_reverse.mp hc
      have : c ≠ '_' := fun he => hi (he ▸ hci)
      simpa using this)
    (by decide)]
  exact List.reverse_reverse i

/-! ## The claims -/

/-- C1 (counterexample): the claim says every SearchDocument's `id` is a
hash of the document's *content*, "for Wiki documents alike".  For wiki
documents the `id` is `"wiki-" + md5(service_name)`: two bundles for the
same service with different file contents produce documents with
different `content` but the *same* `id` (here with the concrete digest
function `fun s => toString s.length`). -/
theorem C1_wiki_id_ignores_content_cex :
    (_process_service_documents (fun s => toString s.length) "svc" ["alpha"] [] "").content
      ≠ (_process_service_documents (fun s => toString s.length) "svc" ["beta"] [] "").content
    ∧ (_process_service_documents (fun s => toString s.length) "svc" ["alpha"] [] "").id
      = (_process_service_documents (fun s => toString s.length) "svc" ["beta"] [] "").id := by
  refine ⟨?_, rfl⟩
  decide

/-- C1 (amended): for API-documentation documents the `id` is exactly the
md5 hex digest of the file content — unchanged content yields an
unchanged `id`, and the `id` changes precisely when the digest of the
content changes.  For Wiki documents the `id` is `"wiki-"` followed by
the digest of the *service name*, and does not depend on the document's
contents at all. -/
theorem C1_id_semantics_amended :
    ∀ (md5hex : String → String) (fn c fn2 c2 name url url2 : String)
      (ds bs ds2 bs2 : List String),
      (parse_markdown_file md5hex fn c).id = md5hex c
      ∧ ((parse_markdown_file md5hex fn c).id = (parse_markdown_file md5hex fn2 c2).id
          ↔ md5hex c = md5hex c2)
      ∧ (_process_service_documents md5hex name ds bs url).id = "wiki-" ++ md5hex name
      ∧ (_process_service_documents md5hex name ds bs url).id
          = (_process_service_documents md5hex name ds2 bs2 url2).id := by
  intro md5hex fn c fn2 c2 name url url2 ds bs ds2 bs2
  exact ⟨rfl, Iff.rfl, rfl, rfl⟩

/-- C2 (code bug): on a specification whose content fails to parse,
`convert_swagger_to_markdown` does raise to its caller, but — contrary to
the claim and to the function's own "falling back" log message — it first
opens the output file for writing, leaving an *empty* markdown file on
disk. -/
theorem C2_parse_failure_leaves_empty_file :
    (convert_swagger_to_markdown none).raised = true
    ∧ (convert_swagger_to_markdown none).fileContent = some "" :=
  ⟨rfl, rfl⟩

/-- C3 (counterexample): the claim says one batch's upload failure does
not prevent the upload calls for the remaining batches.  In
`_upload_documents_to_search`, with 20 documents (2 batches) and the
first upload call throwing, only one upload call is ever attempted and
the function returns `False`. -/
theorem C3_wiki_batch_failure_blocks_rest_cex :
    ((upload_documents_to_search (fun k => k == 0) (List.range 20)).2).map List.length
      = [10]
    ∧ (upload_documents_to_search (fun k => k == 0) (List.range 20)).1 = false := by
  constructor <;> simp [upload_documents_to_search, uploadGo]

/-- C3 (amended): in `index_markdown_files`, a failing *in-loop* batch
upload is caught and does not prevent later upload calls, and the
function returns normally (here: with 20 documents and the first call
throwing, three calls of sizes 10, 11, 9 are attempted — the failed batch
is retained, see C10 — and nothing escapes); but in
`_upload_documents_to_search` the first failing batch aborts all
remaining batches, the function returning `False` rather than raising;
and a failing *final* flush in `index_markdown_files` escapes the
function as an exception. -/
theorem C3_batch_failure_policy_amended :
    ∀ (α : Type) (d1 d2 d3 d4 d5 d6 d7 d8 d9 d10
        d11 d12 d13 d14 d15 d16 d17 d18 d19 d20 : α),
      ((index_markdown_files true (fun k => k == 0)
          ([d1, d2, d3, d4, d5, d6, d7, d8, d9, d10, d11, d12, d13, d14, d15,
            d16, d17, d18, d19, d20].map some)).calls.map List.length = [10, 11, 9]
        ∧ (index_markdown_files true (fun k => k == 0)
            ([d1, d2, d3, d4, d5, d6, d7, d8, d9, d10, d11, d12, d13, d14, d15,
              d16, d17, d18, d19, d20].map some)).raised = false)
      ∧ ((upload_documents_to_search (fun k => k == 0)
            [d1, d2, d3, d4, d5, d6, d7, d8, d9, d10, d11, d12, d13, d14, d15,
             d16, d17, d18, d19, d20]).2.map List.length = [10]
        ∧ (upload_documents_to_search (fun k => k == 0)
            [d1, d2, d3, d4, d5, d6, d7, d8, d9, d10, d11, d12, d13, d14, d15,
             d16, d17, d18, d19, d20]).1 = false)
      ∧ (index_markdown_files true (fun _ => true)
          ([d1, d2, d3, d4, d5].map some)).raised = true := by
  intro α d1 d2 d3 d4 d5 d6 d7 d8 d9 d10 d11 d12 d13 d14 d15 d16 d17 d18 d19 d20
  refine ⟨⟨rfl, rfl⟩, ⟨?_, ?_⟩, rfl⟩ <;>
    simp [upload_documents_to_search, uploadGo]

/-- C4 (counterexample): the claim says the combined content contains the
`"## Design Documentation"` heading exactly once when the design list is
non-empty — but a design source file whose own body contains that heading
line makes it appear twice. -/
theorem C4_heading_in_source_cex :
    headingLineCount designHeading
      (_process_service_documents (fun s => s) "svc"
        ["intro\n## Design Documentation\nmore"] [] "").content = 2 := by
  decide

/-- C4 (amended): provided no design or build source content contains a
line equal to either section heading and the service-name title line is
not itself such a heading, the combined content contains the
`"## Design Documentation"` heading (as a line) exactly once iff the
design list is non-empty, and `"## Build Documentation"` exactly once iff
the build list is non-empty. -/
theorem C4_heading_occurrence_amended (md5hex : String → String) (name url : String)
    (designs builds : List String)
    (hn : headingFree ("# " ++ name))
    (hds : ∀ c ∈ designs, headingFree c) (hbs : ∀ c ∈ builds, headingFree c) :
    (headingLineCount designHeading
        (_process_service_documents md5hex name designs builds url).content = 1
      ↔ designs ≠ [])
    ∧ (headingLineCount buildHeading
        (_process_service_documents md5hex name designs builds url).content = 1
      ↔ builds ≠ []) := by
  have hD := count_combinedContent designHeading.toList (by decide) name designs builds
    hn.1 (fun c hc => (hds c hc).1) (fun c hc => (hbs c hc).1)
  have hB := count_combinedContent buildHeading.toList (by decide) name designs builds
    hn.2 (fun c hc => (hds c hc).2) (fun c hc => (hbs c hc).2)
  have hDB : ¬(designHeading.toList = buildHeading.toList) := by decide
  have hBD : ¬(buildHeading.toList = designHeading.toList) := by decide
  constructor
  · show (splitNl (combinedContent name designs builds).toList).count
        designHeading.toList = 1 ↔ designs ≠ []
    rw [hD]
    by_cases hDe : designs.isEmpty
    · have hnil : designs = [] := List.isEmpty_iff.mp hDe
      subst hnil
      simp only [List.isEmpty_nil, if_pos rfl, Nat.zero_add]
      by_cases hb : builds = []
      · simp [hb]
      · simp [hb]
        exact hDB
    · have hnil : designs ≠ [] := by simpa [List.isEmpty_iff] using hDe
      simp [hDe, hDB, hnil]
      intro _
      exact hDB
  · show (splitNl (combinedContent name designs builds).toList).count
        buildHeading.toList = 1 ↔ builds ≠ []
    rw [hB]
    by_cases hBe : builds.isEmpty
    · have hnil : builds = [] := List.isEmpty_iff.mp hBe
      subst hnil
      simp only [List.isEmpty_nil, if_pos rfl, Nat.add_zero]
      by_cases hb : designs = []
      · simp [hb]
      · simp [hb]
        exact hBD
    · have hnil : builds ≠ [] := by simpa [List.isEmpty_iff] using hBe
      simp [hBe, hBD, hnil]
      intro _
      exact hBD

/-- C4 (witness): the amended statement at a concrete bundle — service
`svc` with one design file and no build files: the design heading occurs
exactly once. -/
theorem C4_heading_occurrence_amended_witness :
    headingFree ("# " ++ "svc")
    ∧ (headingLineCount designHeading
        (_process_service_documents (fun s => s) "svc" ["some design text"] [] "").content
          = 1 ↔ (["some design text"] : List String) ≠ []) :=
  ⟨by decide,
   (C4_heading_occurrence_amended (fun s => s) "svc" "" ["some design text"] []
     (by decide) (by decide) (by decide)).1⟩

/-- C5 (counterexample): the claim says distinct API ids guarantee
distinct filenames.  The display name `x` with id `y_z` and the display
name `x_y` with id `z` both yield the filename `x_y_z.json` although the
ids differ. -/
theorem C5_filename_collision_cex :
    swaggerFileName "x".toList "y_z".toList = swaggerFileName "x_y".toList "z".toList
    ∧ "y_z".toList ≠ "z".toList := by
  decide

/-- C5 (amended): the filenames of two APIs with distinct ids are
distinct provided neither id contains an underscore (the id is then
recoverable as the segment between the last underscore and the `.json`
suffix). -/
theorem C5_filename_uniqueness_amended (n1 i1 n2 i2 : List Char)
    (h1 : '_' ∉ i1) (h2 : '_' ∉ i2) (hne : i1 ≠ i2) :
    swaggerFileName n1 i1 ≠ swaggerFileName n2 i2 := by
  intro he
  apply hne
  have e1 := swaggerFileName_readback n1 i1 h1
  have e2 := swaggerFileName_readback n2 i2 h2
  rw [← e1, ← e2, he]

/-- C5 (witness): the amended statement at concrete inputs — equal
display names `a` with underscore-free ids `1` and `2` give distinct
filenames. -/
theorem C5_filename_uniqueness_amended_witness :
    '_' ∉ ['1'] ∧ '_' ∉ ['2']
    ∧ swaggerFileName ['a'] ['1'] ≠ swaggerFileName ['a'] ['2'] :=
  ⟨by decide, by decide,
   C5_filename_uniqueness_amended ['a'] ['1'] ['a'] ['2']
     (by decide) (by decide) (by decide)⟩

/-- C6 (counterexample): the claim says a failed LLM extraction is
surfaced *to the pipeline* as a raised error rather than reduced to a
logged skip.  `process_swagger_file` does raise, but `index_swagger_files`
catches that very error in its per-file handler and returns normally with
the document skipped — exactly a logged skip. -/
theorem C6_extraction_error_swallowed_cex :
    process_swagger_file (fun _ => none) (fun s => s) (fun i => i.apiName)
        "dir/f.json" "f.json" (some "raw swagger")
      = .error "Failed to extract API information using LLM from f.json"
    ∧ index_swagger_files true (fun _ => none) (fun s => s) (fun i => i.apiName)
        (fun _ => false) [("dir/f.json", "f.json", some "raw swagger")]
      = (0, []) :=
  ⟨rfl, rfl⟩

/-- C6 (amended): a failed extraction, or one whose `apiName` is missing
or empty, makes `process_swagger_file` raise `ValueError` and keeps the
document out of the index; but `index_swagger_files` catches this error
in its per-file handler like every other per-item failure, returning
normally with the document skipped — it is not surfaced to the pipeline
as a raised error. -/
theorem C6_extraction_failure_amended (extract : String → Option ApiInfo)
    (md5hex : String → String) (dumps : ApiInfo → String) (failAt : Nat → Bool)
    (path name content : String)
    (hfail : extract content = none
      ∨ ∃ i, extract content = some i ∧ i.apiName = "") :
    process_swagger_file extract md5hex dumps path name (some content)
      = .error ("Failed to extract API information using LLM from " ++ name)
    ∧ index_swagger_files true extract md5hex dumps failAt
        [(path, name, some content)] = (0, []) := by
  have hp : process_swagger_file extract md5hex dumps path name (some content)
      = .error ("Failed to extract API information using LLM from " ++ name) := by
    rcases hfail with h | ⟨i, hi, hname⟩
    · simp [process_swagger_file, h]
    · simp [process_swagger_file, hi, hname]
  refine ⟨hp, ?_⟩
  simp [index_swagger_files, indexGoV2, hp]

/-- C6 (witness): the amended statement at a concrete file whose
extraction returns nothing. -/
theorem C6_extraction_failure_amended_witness :
    process_swagger_file (fun _ => none) (fun s => s ++ "!") (fun i => i.apiName)
        "p/f.json" "g.json" (some "body")
      = .error "Failed to extract API information using LLM from g.json"
    ∧ index_swagger_files true (fun _ => none) (fun s => s ++ "!") (fun i => i.apiName)
        (fun _ => true) [("p/f.json", "g.json", some "body")] = (0, []) :=
  C6_extraction_failure_amended (fun _ => none) (fun s => s ++ "!")
    (fun i => i.apiName) (fun _ => true) "p/f.json" "g.json" "body" (Or.inl rfl)

/-- C7: publishing 23 documents (all processing successfully, all uploads
succeeding) makes exactly 3 upload calls of sizes 10, 10 and 3, both in
`_upload_documents_to_search` and in `index_markdown_files`. -/
theorem C7_batching_23_docs :
    ∀ (α : Type) (d1 d2 d3 d4 d5 d6 d7 d8 d9 d10 d11 d12
        d13 d14 d15 d16 d17 d18 d19 d20 d21 d22 d23 : α),
      ((upload_documents_to_search (fun _ => false)
          [d1, d2, d3, d4, d5, d6, d7, d8, d9, d10, d11, d12, d13, d14, d15,
           d16, d17, d18, d19, d20, d21, d22, d23]).2.map List.length
        = [10, 10, 3])
      ∧ ((index_markdown_files true (fun _ => false)
          ([d1, d2, d3, d4, d5, d6, d7, d8, d9, d10, d11, d12, d13, d14, d15,
            d16, d17, d18, d19, d20, d21, d22, d23].map some)).calls.map List.length
        = [10, 10, 3]) := by
  intro α d1 d2 d3 d4 d5 d6 d7 d8 d9 d10 d11 d12 d13 d14 d15 d16 d17 d18 d19
    d20 d21 d22 d23
  refine ⟨?_, rfl⟩
  simp [upload_documents_to_search, uploadGo]

/-- C8 (code bug): `index_markdown_files` is documented (docstring and
spec) to return the number of files *successfully* indexed, but it
returns `len(markdown_files)`: with one good file and one whose parse
throws, only one document is ever uploaded yet the function returns 2. -/
theorem C8_returns_input_count_bug :
    (index_markdown_files true (fun _ => false) [some 7, none]).result = 2
    ∧ (index_markdown_files true (fun _ => false) [some 7, none]).calls = [[7]] :=
  ⟨rfl, rfl⟩

/-- C9: the markdown renderer is a pure function of the parsed document:
identical input produces byte-identical output. -/
theorem C9_render_deterministic (s1 s2 : Swagger) (h : s1 = s2) :
    _python_based_conversion s1 = _python_based_conversion s2 := by
  rw [h]

/-- C9 (witness): determinism applied at the concrete scenario document
of spec §8. -/
theorem C9_render_deterministic_witness :
    _python_based_conversion ordersDoc = _python_based_conversion ordersDoc :=
  C9_render_deterministic ordersDoc ordersDoc rfl

/-- C10: in `index_markdown_files`, when the upload of a full batch of 10
throws, the buffer is left unchanged, so the next upload call carries the
same 10 documents plus the next one — 11 documents. -/
theorem C10_failed_batch_retained :
    ∀ (α : Type) (d1 d2 d3 d4 d5 d6 d7 d8 d9 d10 d11 : α),
      (index_markdown_files true (fun k => k == 0)
          ([d1, d2, d3, d4, d5, d6, d7, d8, d9, d10, d11].map some)).calls
        = [[d1, d2, d3, d4, d5, d6, d7, d8, d9, d10],
           [d1, d2, d3, d4, d5, d6, d7, d8, d9, d10, d11]]
      ∧ (index_markdown_files true (fun k => k == 0)
          ([d1, d2, d3, d4, d5, d6, d7, d8, d9, d10, d11].map some)).calls.map
            List.length = [10, 11] := by
  intro α d1 d2 d3 d4 d5 d6 d7 d8 d9 d10 d11
  exact ⟨rfl, rfl⟩

end ApimSwagger
